import Mathlib

/-!
Shallow embedding of the dust-sphere animation component
(`src/dust_sphere_animation.jsx`).

The component builds three parallel buffers (`position`, `normalVec`,
`aRandom`) with a Fibonacci-sphere layout, then on every animation frame
recomputes each position along its fixed normal from the elapsed time,
and sets the cloud rotation angles from the elapsed time.  JS numbers are
modelled as real numbers; the two `Math.random()` draws made per particle
are modelled as oracle functions `rand1 rand2 : ℕ → ℝ` whose values lie
in `[0, 1)`.
-/

namespace DustSphere

/-- A 3-component vector, one particle's slot in a Three.js buffer. -/
@[ext]
structure Vec3 where
  x : ℝ
  y : ℝ
  z : ℝ

/-- Scalar multiple of a vector, as in `nrm[i3] * (radius + noise)`. -/
def Vec3.smul (c : ℝ) (v : Vec3) : Vec3 :=
  ⟨c * v.x, c * v.y, c * v.z⟩

/-- Euclidean length of a vector. -/
noncomputable def norm3 (v : Vec3) : ℝ :=
  Real.sqrt (v.x ^ 2 + v.y ^ 2 + v.z ^ 2)

/-- The props of `DustSphereApp`: defaults are
`particleCount=2000, baseRadius=5, pulseAmplitude=0.6, pulseSpeed=1.05,
rotationSpeed=0.65`. -/
structure Params where
  particleCount : ℕ
  baseRadius : ℝ
  pulseAmplitude : ℝ
  pulseSpeed : ℝ
  rotationSpeed : ℝ

/-- Polar angle `phi = Math.acos(1 - 2 * (i + 0.5) / particleCount)` of the layout loop. -/
noncomputable def phiOf (N i : ℕ) : ℝ :=
  Real.arccos (1 - 2 * ((i : ℝ) + 0.5) / (N : ℝ))

/-- Azimuthal angle `theta = Math.PI * (1 + Math.sqrt(5)) * (i + 0.5)` of the layout loop. -/
noncomputable def thetaOf (i : ℕ) : ℝ :=
  Real.pi * (1 + Real.sqrt 5) * ((i : ℝ) + 0.5)

/-- The unit direction written into `normals[i3..i3+2]`:
`(sin(phi)cos(theta), sin(phi)sin(theta), cos(phi))`. -/
noncomputable def normalOf (N i : ℕ) : Vec3 :=
  ⟨Real.sin (phiOf N i) * Real.cos (thetaOf i),
   Real.sin (phiOf N i) * Real.sin (thetaOf i),
   Real.cos (phiOf N i)⟩

/-- Initial radial jitter `(Math.random() - 0.5) * 0.02`, with the draw supplied
by the oracle `rand1`. -/
def jitterOf (rand1 : ℕ → ℝ) (i : ℕ) : ℝ :=
  (rand1 i - 0.5) * 0.02

/-- The initial position written into `positions[i3..i3+2]`:
each normal component times `baseRadius + jitter`. -/
noncomputable def initPositionOf (p : Params) (rand1 : ℕ → ℝ) (i : ℕ) : Vec3 :=
  Vec3.smul (p.baseRadius + jitterOf rand1 i) (normalOf p.particleCount i)

/-- The three parallel buffers attached to the geometry:
`position`, `normalVec` and `aRandom`. -/
structure ParticleSet where
  position : List Vec3
  normalVec : List Vec3
  aRandom : List ℝ

/-- The layout loop of `DustSphereApp`: for `i` in `[0, particleCount)` fill
`positions`, `normals` and `randoms` (`randoms[i] = Math.random()`, drawn
from the oracle `rand2`). -/
noncomputable def buildParticleSet (p : Params) (rand1 rand2 : ℕ → ℝ) : ParticleSet :=
  { position := (List.range p.particleCount).map (initPositionOf p rand1)
    normalVec := (List.range p.particleCount).map (normalOf p.particleCount)
    aRandom := (List.range p.particleCount).map rand2 }

/-- Per-point scale factor `r = rnd[i] * 0.8 + 0.2` of the animate loop. -/
def rFactor (s : ParticleSet) (i : ℕ) : ℝ :=
  s.aRandom.getD i 0 * 0.8 + 0.2

/-- Shared oscillation `pulse = Math.sin(elapsed * pulseSpeed) * pulseAmplitude`. -/
noncomputable def pulseAt (p : Params) (t : ℝ) : ℝ :=
  Real.sin (t * p.pulseSpeed) * p.pulseAmplitude

/-- Per-point wobble `noise = Math.sin(elapsed * (0.7 + r * 2.0) + i) * 0.005`. -/
noncomputable def noiseAt (p : Params) (s : ParticleSet) (i : ℕ) (t : ℝ) : ℝ :=
  Real.sin (t * (0.7 + rFactor s i * 2.0) + (i : ℝ)) * 0.005

/-- Per-point radius `radius = baseRadius + localPulse` where
`localPulse = pulse * r`. -/
noncomputable def radiusAt (p : Params) (s : ParticleSet) (i : ℕ) (t : ℝ) : ℝ :=
  p.baseRadius + pulseAt p t * rFactor s i

/-- One iteration of the animate loop's body:
`pos[i3..] = nrm[i3..] * (radius + noise)`. -/
noncomputable def updatedPosition (p : Params) (s : ParticleSet) (t : ℝ) (i : ℕ) : Vec3 :=
  Vec3.smul (radiusAt p s i t + noiseAt p s i t) (s.normalVec.getD i ⟨0, 0, 0⟩)

/-- The `if (runningRef.current) { ... }` block of `animate`: when running,
rewrite every position from the normals and `aRandom`; when paused, leave
the buffers untouched. -/
noncomputable def animateStep (p : Params) (running : Bool) (t : ℝ) (s : ParticleSet) :
    ParticleSet :=
  if running then
    { s with position := (List.range p.particleCount).map (updatedPosition p s t) }
  else s

/-- The mutable scene state an animation frame touches: the geometry buffers
and the rotation angles of the `Points` object. -/
structure SceneState where
  pset : ParticleSet
  rotationX : ℝ
  rotationY : ℝ

/-- One invocation of `animate` at elapsed time `t`: the position update is
gated on `running`; the rotation angles are set unconditionally to
`elapsed * rotationSpeed` and `elapsed * (rotationSpeed * 0.18)`. -/
noncomputable def tick (p : Params) (running : Bool) (t : ℝ) (st : SceneState) : SceneState :=
  { pset := animateStep p running t st.pset
    rotationY := t * p.rotationSpeed
    rotationX := t * (p.rotationSpeed * 0.18) }

/-- A sequence of `animate` invocations, each with its own running flag and
elapsed time. -/
noncomputable def runTicks (p : Params) : List (Bool × ℝ) → SceneState → SceneState
  | [], st => st
  | (rn, t) :: rest, st => runTicks p rest (tick p rn t st)

/-- The scene right after construction: buffers from the layout loop, and a
fresh `Points` object whose rotation is zero. -/
noncomputable def initScene (p : Params) (rand1 rand2 : ℕ → ℝ) : SceneState :=
  { pset := buildParticleSet p rand1 rand2
    rotationX := 0
    rotationY := 0 }

/-- The object published by the deferred `setReadyInfo` call:
the configured particle count, the geometry handle and the presence of the
`Points` object (`points` truthiness). -/
structure ReadyInfo where
  particleCount : ℕ
  geometry : ParticleSet
  hasPoints : Bool

/-- Outcome of the quick-check button: either the early-return alert
(readyInfo still null) or the report of the position-attribute count, the
count comparison and the points-presence flag. -/
inductive CheckOutcome where
  | notReady : CheckOutcome
  | report : ℕ → Bool → Bool → CheckOutcome
deriving DecidableEq

/-- The `quickCheck` handler: bail out with the not-ready alert when
`readyInfo` is null, otherwise report
`posCount, posCount === particleCount, !!readyInfo.points`. -/
def quickCheck : Option ReadyInfo → CheckOutcome
  | none => CheckOutcome.notReady
  | some ri =>
      CheckOutcome.report ri.geometry.position.length
        (ri.geometry.position.length == ri.particleCount) ri.hasPoints

/-- The `readyInfo` value published after initialization completes:
`{ particleCount, geometry, points }`, with the `Points` object present. -/
noncomputable def publishedReadyInfo (p : Params) (rand1 rand2 : ℕ → ℝ) : ReadyInfo :=
  { particleCount := p.particleCount
    geometry := buildParticleSet p rand1 rand2
    hasPoints := true }

/- ### Helper lemmas -/

/-- Indexing a buffer built by mapping over the index range. -/
theorem getD_map_range {α : Type} (f : ℕ → α) {n i : ℕ} (h : i < n) (d : α) :
    ((List.range n).map f).getD i d = f i := by
  simp [List.getD_eq_getElem?_getD, List.getElem?_map, List.getElem?_range h]

/-- The layout's directions have Euclidean length exactly 1. -/
theorem norm3_normalOf (N i : ℕ) : norm3 (normalOf N i) = 1 := by
  unfold norm3 normalOf
  have hsum : (Real.sin (phiOf N i) * Real.cos (thetaOf i)) ^ 2
      + (Real.sin (phiOf N i) * Real.sin (thetaOf i)) ^ 2
      + Real.cos (phiOf N i) ^ 2 = 1 := by
    nlinarith [Real.sin_sq_add_cos_sq (phiOf N i), Real.sin_sq_add_cos_sq (thetaOf i)]
  rw [hsum, Real.sqrt_one]

/-- Length of a scalar multiple. -/
theorem norm3_smul (c : ℝ) (v : Vec3) : norm3 (Vec3.smul c v) = |c| * norm3 v := by
  unfold norm3 Vec3.smul
  rw [show (c * v.x) ^ 2 + (c * v.y) ^ 2 + (c * v.z) ^ 2
      = c ^ 2 * (v.x ^ 2 + v.y ^ 2 + v.z ^ 2) by ring,
    Real.sqrt_mul (sq_nonneg c), Real.sqrt_sq_eq_abs]

/-- The animate pass never writes the `normalVec` attribute. -/
theorem animateStep_normalVec (p : Params) (running : Bool) (t : ℝ) (s : ParticleSet) :
    (animateStep p running t s).normalVec = s.normalVec := by
  cases running <;> rfl

/-- The animate pass never writes the `aRandom` attribute. -/
theorem animateStep_aRandom (p : Params) (running : Bool) (t : ℝ) (s : ParticleSet) :
    (animateStep p running t s).aRandom = s.aRandom := by
  cases running <;> rfl

/-- No number of animate invocations writes the `normalVec` attribute. -/
theorem runTicks_normalVec (p : Params) (ticks : List (Bool × ℝ)) :
    ∀ st : SceneState, (runTicks p ticks st).pset.normalVec = st.pset.normalVec := by
  induction ticks with
  | nil => intro st; rfl
  | cons pr rest ih =>
      intro st
      obtain ⟨rn, t⟩ := pr
      rw [runTicks, ih]
      exact animateStep_normalVec p rn t st.pset

/-- No number of animate invocations writes the `aRandom` attribute. -/
theorem runTicks_aRandom (p : Params) (ticks : List (Bool × ℝ)) :
    ∀ st : SceneState, (runTicks p ticks st).pset.aRandom = st.pset.aRandom := by
  induction ticks with
  | nil => intro st; rfl
  | cons pr rest ih =>
      intro st
      obtain ⟨rn, t⟩ := pr
      rw [runTicks, ih]
      exact animateStep_aRandom p rn t st.pset

/- ### Claim theorems -/

/-- C3: for every non-negative count the layout loop produces exactly
`particleCount` entries in each of the position, normal and random buffers
(zero yielding empty buffers), and every normal has unit length. -/
theorem C3_layout_counts_and_unit_normals (p : Params) (rand1 rand2 : ℕ → ℝ) :
    (buildParticleSet p rand1 rand2).position.length = p.particleCount ∧
    (buildParticleSet p rand1 rand2).normalVec.length = p.particleCount ∧
    (buildParticleSet p rand1 rand2).aRandom.length = p.particleCount ∧
    ∀ i, i < p.particleCount →
      norm3 ((buildParticleSet p rand1 rand2).normalVec.getD i ⟨0, 0, 0⟩) = 1 := by
  refine ⟨by simp [buildParticleSet], by simp [buildParticleSet], by simp [buildParticleSet], ?_⟩
  intro i hi
  rw [buildParticleSet, getD_map_range (normalOf p.particleCount) hi]
  exact norm3_normalOf p.particleCount i

/-- C3 witness: at the concrete count 2, all three buffers have two entries
and the first normal has unit length. -/
theorem C3_layout_counts_and_unit_normals_witness :
    (buildParticleSet ⟨2, 5, 0.6, 1.05, 0.65⟩ (fun _ => 0) (fun _ => 0)).position.length = 2 ∧
    (buildParticleSet ⟨2, 5, 0.6, 1.05, 0.65⟩ (fun _ => 0) (fun _ => 0)).normalVec.length = 2 ∧
    (buildParticleSet ⟨2, 5, 0.6, 1.05, 0.65⟩ (fun _ => 0) (fun _ => 0)).aRandom.length = 2 ∧
    norm3 ((buildParticleSet ⟨2, 5, 0.6, 1.05, 0.65⟩ (fun _ => 0)
      (fun _ => 0)).normalVec.getD 0 ⟨0, 0, 0⟩) = 1 := by
  have h := C3_layout_counts_and_unit_normals ⟨2, 5, 0.6, 1.05, 0.65⟩ (fun _ => 0) (fun _ => 0)
  exact ⟨h.1, h.2.1, h.2.2.1, h.2.2.2 0 (by norm_num)⟩

/-- C5: an animate invocation with the running flag false leaves the position
buffer completely unchanged, at every elapsed time, and so does any sequence
of paused invocations. -/
theorem C5_paused_is_noop (p : Params) (t : ℝ) (st : SceneState) (ts : List ℝ) :
    (tick p false t st).pset.position = st.pset.position ∧
    (runTicks p (ts.map (fun u => (false, u))) st).pset.position = st.pset.position := by
  refine ⟨rfl, ?_⟩
  induction ts generalizing st with
  | nil => rfl
  | cons u rest ih => exact ih (tick p false u st)

/-- C6: every animate invocation, whatever the running flag, sets the cloud
rotation to the absolute angles `t * rotationSpeed` and
`t * rotationSpeed * 0.18`; the same elapsed time yields identical angles
whatever state the previous ticks left behind. -/
theorem C6_rotation_absolute (p : Params) (running other : Bool) (t : ℝ)
    (st stOther : SceneState) :
    (tick p running t st).rotationY = t * p.rotationSpeed ∧
    (tick p running t st).rotationX = t * p.rotationSpeed * 0.18 ∧
    (tick p running t st).rotationY = (tick p other t stOther).rotationY ∧
    (tick p running t st).rotationX = (tick p other t stOther).rotationX := by
  refine ⟨rfl, ?_, rfl, rfl⟩
  show t * (p.rotationSpeed * 0.18) = t * p.rotationSpeed * 0.18
  ring

/-- C9: an animate invocation leaves the normal and random buffers exactly as
constructed, and the running update's position output depends only on the
elapsed time, the normal buffer, the random buffer and the parameters —
never on the previous positions. -/
theorem C9_update_touches_only_position (p : Params) (running : Bool) (t : ℝ)
    (st : SceneState) (s1 s2 : ParticleSet)
    (hn : s1.normalVec = s2.normalVec) (hr : s1.aRandom = s2.aRandom) :
    (tick p running t st).pset.normalVec = st.pset.normalVec ∧
    (tick p running t st).pset.aRandom = st.pset.aRandom ∧
    (animateStep p true t s1).position = (animateStep p true t s2).position := by
  refine ⟨animateStep_normalVec p running t st.pset, animateStep_aRandom p running t st.pset, ?_⟩
  show (List.range p.particleCount).map (updatedPosition p s1 t)
      = (List.range p.particleCount).map (updatedPosition p s2 t)
  refine List.map_congr_left fun i _ => ?_
  unfold updatedPosition radiusAt noiseAt rFactor
  rw [hn, hr]

/-- C9 witness: at a concrete tick, the normal and random buffers survive and
two states sharing those buffers produce the same positions. -/
theorem C9_update_touches_only_position_witness :
    (tick ⟨1, 5, 0.6, 1.05, 0.65⟩ true 1 (initScene ⟨1, 5, 0.6, 1.05, 0.65⟩
        (fun _ => 0) (fun _ => 0))).pset.normalVec
      = (initScene ⟨1, 5, 0.6, 1.05, 0.65⟩ (fun _ => 0) (fun _ => 0)).pset.normalVec ∧
    (tick ⟨1, 5, 0.6, 1.05, 0.65⟩ true 1 (initScene ⟨1, 5, 0.6, 1.05, 0.65⟩
        (fun _ => 0) (fun _ => 0))).pset.aRandom
      = (initScene ⟨1, 5, 0.6, 1.05, 0.65⟩ (fun _ => 0) (fun _ => 0)).pset.aRandom ∧
    (animateStep ⟨1, 5, 0.6, 1.05, 0.65⟩ true 1
        ⟨[⟨7, 7, 7⟩], [⟨1, 0, 0⟩], [0.5]⟩).position
      = (animateStep ⟨1, 5, 0.6, 1.05, 0.65⟩ true 1
        ⟨[⟨0, 0, 0⟩], [⟨1, 0, 0⟩], [0.5]⟩).position :=
  C9_update_touches_only_position ⟨1, 5, 0.6, 1.05, 0.65⟩ true 1
    (initScene ⟨1, 5, 0.6, 1.05, 0.65⟩ (fun _ => 0) (fun _ => 0))
    ⟨[⟨7, 7, 7⟩], [⟨1, 0, 0⟩], [0.5]⟩ ⟨[⟨0, 0, 0⟩], [⟨1, 0, 0⟩], [0.5]⟩ rfl rfl

/-- C8: run after initialization completes with 2000 particles, the
quick-check reports a position count of 2000, a matching count, and the
points object present; run before the ready info exists, it yields the
distinct not-ready outcome. -/
theorem C8_quickCheck_outcomes (p : Params) (rand1 rand2 : ℕ → ℝ)
    (h : p.particleCount = 2000) :
    quickCheck (some (publishedReadyInfo p rand1 rand2))
      = CheckOutcome.report 2000 true true ∧
    quickCheck none = CheckOutcome.notReady := by
  constructor
  · simp [quickCheck, publishedReadyInfo, buildParticleSet, h]
  · rfl

/-- C8 witness: at the default props the quick-check reports 2000, matching,
points present, and the pre-initialization call reports not ready. -/
theorem C8_quickCheck_outcomes_witness :
    quickCheck (some (publishedReadyInfo ⟨2000, 5, 0.6, 1.05, 0.65⟩
        (fun _ => 0) (fun _ => 0)))
      = CheckOutcome.report 2000 true true ∧
    quickCheck none = CheckOutcome.notReady :=
  C8_quickCheck_outcomes ⟨2000, 5, 0.6, 1.05, 0.65⟩ (fun _ => 0) (fun _ => 0) rfl

/-- C2: while running, the animate loop writes
`position[i] = normal[i] * (baseRadius + pulse * r + noise)` with
`pulse = sin(t * pulseSpeed) * pulseAmplitude`, `r = jitterFactor[i] * 0.8 + 0.2`
lying in `[0.2, 1.0]`, and `noise = sin(t * (0.7 + r * 2.0) + i) * 0.005`. -/
theorem C2_running_update_formula (p : Params) (rand1 rand2 : ℕ → ℝ) (t : ℝ) (i : ℕ)
    (hi : i < p.particleCount) (h0 : 0 ≤ rand2 i) (h1 : rand2 i < 1) :
    (animateStep p true t (buildParticleSet p rand1 rand2)).position.getD i ⟨0, 0, 0⟩
      = Vec3.smul (p.baseRadius
          + Real.sin (t * p.pulseSpeed) * p.pulseAmplitude * (rand2 i * 0.8 + 0.2)
          + Real.sin (t * (0.7 + (rand2 i * 0.8 + 0.2) * 2.0) + (i : ℝ)) * 0.005)
        (normalOf p.particleCount i)
    ∧ 0.2 ≤ rand2 i * 0.8 + 0.2 ∧ rand2 i * 0.8 + 0.2 ≤ 1 := by
  refine ⟨?_, by nlinarith, by nlinarith⟩
  show ((List.range p.particleCount).map
      (updatedPosition p (buildParticleSet p rand1 rand2) t)).getD i ⟨0, 0, 0⟩ = _
  rw [getD_map_range _ hi]
  unfold updatedPosition radiusAt noiseAt pulseAt rFactor
  rw [show (buildParticleSet p rand1 rand2).aRandom = (List.range p.particleCount).map rand2
      from rfl,
    show (buildParticleSet p rand1 rand2).normalVec
      = (List.range p.particleCount).map (normalOf p.particleCount) from rfl,
    getD_map_range rand2 hi, getD_map_range (normalOf p.particleCount) hi]

/-- C2 witness: the running update formula evaluated at one particle,
time zero, and constant-zero random draws. -/
theorem C2_running_update_formula_witness :
    (animateStep ⟨1, 5, 0.6, 1.05, 0.65⟩ true 0
        (buildParticleSet ⟨1, 5, 0.6, 1.05, 0.65⟩ (fun _ => 0)
          (fun _ => 0))).position.getD 0 ⟨0, 0, 0⟩
      = Vec3.smul ((5 : ℝ)
          + Real.sin (0 * 1.05) * 0.6 * ((0 : ℝ) * 0.8 + 0.2)
          + Real.sin (0 * (0.7 + ((0 : ℝ) * 0.8 + 0.2) * 2.0) + ((0 : ℕ) : ℝ)) * 0.005)
        (normalOf 1 0)
    ∧ (0.2 : ℝ) ≤ (0 : ℝ) * 0.8 + 0.2 ∧ (0 : ℝ) * 0.8 + 0.2 ≤ 1 :=
  C2_running_update_formula ⟨1, 5, 0.6, 1.05, 0.65⟩ (fun _ => 0) (fun _ => 0) 0 0
    (by norm_num) (by norm_num) (by norm_num)

/-- C4: the layout loop computes exactly the Fibonacci-sphere formulas —
`phi = acos(1 - 2(i+0.5)/N)`, `theta = pi(1+sqrt 5)(i+0.5)`, the spherical
unit normal, a position scaled by `baseRadius` plus a one-time jitter in
`[-0.01, 0.01]`, and an independent random scalar in `[0, 1)`. -/
theorem C4_layout_formulas (p : Params) (rand1 rand2 : ℕ → ℝ) (i : ℕ)
    (hi : i < p.particleCount) (ha : 0 ≤ rand1 i) (hb : rand1 i < 1)
    (hc : 0 ≤ rand2 i) (hd : rand2 i < 1) :
    (buildParticleSet p rand1 rand2).normalVec.getD i ⟨0, 0, 0⟩
      = ⟨Real.sin (Real.arccos (1 - 2 * ((i : ℝ) + 0.5) / (p.particleCount : ℝ)))
           * Real.cos (Real.pi * (1 + Real.sqrt 5) * ((i : ℝ) + 0.5)),
         Real.sin (Real.arccos (1 - 2 * ((i : ℝ) + 0.5) / (p.particleCount : ℝ)))
           * Real.sin (Real.pi * (1 + Real.sqrt 5) * ((i : ℝ) + 0.5)),
         Real.cos (Real.arccos (1 - 2 * ((i : ℝ) + 0.5) / (p.particleCount : ℝ)))⟩
    ∧ (buildParticleSet p rand1 rand2).position.getD i ⟨0, 0, 0⟩
      = Vec3.smul (p.baseRadius + (rand1 i - 0.5) * 0.02)
          ((buildParticleSet p rand1 rand2).normalVec.getD i ⟨0, 0, 0⟩)
    ∧ -0.01 ≤ (rand1 i - 0.5) * 0.02 ∧ (rand1 i - 0.5) * 0.02 ≤ 0.01
    ∧ (buildParticleSet p rand1 rand2).aRandom.getD i 0 = rand2 i
    ∧ 0 ≤ rand2 i ∧ rand2 i < 1 := by
  refine ⟨?_, ?_, by nlinarith, by nlinarith, ?_, hc, hd⟩
  · show ((List.range p.particleCount).map (normalOf p.particleCount)).getD i ⟨0, 0, 0⟩ = _
    rw [getD_map_range _ hi]
    rfl
  · show ((List.range p.particleCount).map (initPositionOf p rand1)).getD i ⟨0, 0, 0⟩ = _
    rw [getD_map_range _ hi,
      show ((buildParticleSet p rand1 rand2).normalVec)
        = (List.range p.particleCount).map (normalOf p.particleCount) from rfl,
      getD_map_range (normalOf p.particleCount) hi]
    rfl
  · show ((List.range p.particleCount).map rand2).getD i 0 = rand2 i
    exact getD_map_range rand2 hi 0

/-- C4 witness: the layout formulas evaluated at one particle with
constant-zero random draws. -/
theorem C4_layout_formulas_witness :
    (buildParticleSet ⟨1, 5, 0.6, 1.05, 0.65⟩ (fun _ => 0)
        (fun _ => 0)).normalVec.getD 0 ⟨0, 0, 0⟩
      = ⟨Real.sin (Real.arccos (1 - 2 * (((0 : ℕ) : ℝ) + 0.5) / ((1 : ℕ) : ℝ)))
           * Real.cos (Real.pi * (1 + Real.sqrt 5) * (((0 : ℕ) : ℝ) + 0.5)),
         Real.sin (Real.arccos (1 - 2 * (((0 : ℕ) : ℝ) + 0.5) / ((1 : ℕ) : ℝ)))
           * Real.sin (Real.pi * (1 + Real.sqrt 5) * (((0 : ℕ) : ℝ) + 0.5)),
         Real.cos (Real.arccos (1 - 2 * (((0 : ℕ) : ℝ) + 0.5) / ((1 : ℕ) : ℝ)))⟩
    ∧ (buildParticleSet ⟨1, 5, 0.6, 1.05, 0.65⟩ (fun _ => 0)
        (fun _ => 0)).position.getD 0 ⟨0, 0, 0⟩
      = Vec3.smul ((5 : ℝ) + ((0 : ℝ) - 0.5) * 0.02)
          ((buildParticleSet ⟨1, 5, 0.6, 1.05, 0.65⟩ (fun _ => 0)
            (fun _ => 0)).normalVec.getD 0 ⟨0, 0, 0⟩)
    ∧ (-0.01 : ℝ) ≤ ((0 : ℝ) - 0.5) * 0.02 ∧ ((0 : ℝ) - 0.5) * 0.02 ≤ 0.01
    ∧ (buildParticleSet ⟨1, 5, 0.6, 1.05, 0.65⟩ (fun _ => 0)
        (fun _ => 0)).aRandom.getD 0 0 = 0
    ∧ (0 : ℝ) ≤ 0 ∧ (0 : ℝ) < 1 :=
  C4_layout_formulas ⟨1, 5, 0.6, 1.05, 0.65⟩ (fun _ => 0) (fun _ => 0) 0
    (by norm_num) (by norm_num) (by norm_num) (by norm_num) (by norm_num)

/-- C7: with a nonzero pulse speed, the baseRadius-plus-local-pulse radius is
periodic with period `2 * pi / pulseSpeed` at every particle and time. -/
theorem C7_radius_periodicity (p : Params) (s : ParticleSet) (i : ℕ) (t : ℝ)
    (h : p.pulseSpeed ≠ 0) :
    radiusAt p s i (t + 2 * Real.pi / p.pulseSpeed) = radiusAt p s i t := by
  unfold radiusAt pulseAt
  rw [add_mul, div_mul_cancel₀ _ h, Real.sin_add_two_pi]

/-- C7 witness: the radius period at the default pulse speed, evaluated for
an empty particle set at time zero. -/
theorem C7_radius_periodicity_witness :
    radiusAt ⟨1, 5, 0.6, 1.05, 0.65⟩ ⟨[], [], []⟩ 0 (0 + 2 * Real.pi / 1.05)
      = radiusAt ⟨1, 5, 0.6, 1.05, 0.65⟩ ⟨[], [], []⟩ 0 0 :=
  C7_radius_periodicity ⟨1, 5, 0.6, 1.05, 0.65⟩ ⟨[], [], []⟩ 0 0 (by norm_num)

/-- Auxiliary invariant: if a particle sits on its normal's ray and the
normal buffer holds the layout direction, any sequence of animate
invocations keeps the particle on that ray. -/
theorem runTicks_on_ray_aux (p : Params) (i : ℕ) (hi : i < p.particleCount)
    (ticks : List (Bool × ℝ)) :
    ∀ st : SceneState,
      st.pset.normalVec.getD i ⟨0, 0, 0⟩ = normalOf p.particleCount i →
      (∃ c, st.pset.position.getD i ⟨0, 0, 0⟩ = Vec3.smul c (normalOf p.particleCount i)) →
      ∃ c, (runTicks p ticks st).pset.position.getD i ⟨0, 0, 0⟩
          = Vec3.smul c (normalOf p.particleCount i) := by
  induction ticks with
  | nil => exact fun st _ h => h
  | cons pr rest ih =>
      intro st hn h
      obtain ⟨rn, t⟩ := pr
      rw [runTicks]
      apply ih
      · rw [show (tick p rn t st).pset.normalVec = st.pset.normalVec from
          animateStep_normalVec p rn t st.pset]
        exact hn
      · cases rn with
        | false => exact h
        | true =>
            refine ⟨radiusAt p st.pset i t + noiseAt p st.pset i t, ?_⟩
            show ((List.range p.particleCount).map
                (updatedPosition p st.pset t)).getD i ⟨0, 0, 0⟩ = _
            rw [getD_map_range _ hi]
            unfold updatedPosition
            rw [hn]

/-- C1: from construction on, through any sequence of animate invocations at
any elapsed times and running flags, every particle's position is a scalar
multiple of its fixed layout normal — it never leaves the normal's ray. -/
theorem C1_position_stays_on_normal_ray (p : Params) (rand1 rand2 : ℕ → ℝ)
    (ticks : List (Bool × ℝ)) (i : ℕ) (hi : i < p.particleCount) :
    ∃ c, (runTicks p ticks (initScene p rand1 rand2)).pset.position.getD i ⟨0, 0, 0⟩
        = Vec3.smul c (normalOf p.particleCount i) := by
  apply runTicks_on_ray_aux p i hi ticks
  · show ((List.range p.particleCount).map (normalOf p.particleCount)).getD i ⟨0, 0, 0⟩ = _
    exact getD_map_range (normalOf p.particleCount) hi (⟨0, 0, 0⟩ : Vec3)
  · refine ⟨p.baseRadius + jitterOf rand1 i, ?_⟩
    show ((List.range p.particleCount).map (initPositionOf p rand1)).getD i ⟨0, 0, 0⟩ = _
    rw [getD_map_range _ hi]
    rfl

/-- C1 witness: after a running tick and a paused tick from construction, the
single particle still sits on its normal's ray. -/
theorem C1_position_stays_on_normal_ray_witness :
    ∃ c, (runTicks ⟨1, 5, 0.6, 1.05, 0.65⟩ [(true, 1), (false, 2)]
        (initScene ⟨1, 5, 0.6, 1.05, 0.65⟩ (fun _ => 0)
          (fun _ => 0))).pset.position.getD 0 ⟨0, 0, 0⟩
      = Vec3.smul c (normalOf 1 0) :=
  C1_position_stays_on_normal_ray ⟨1, 5, 0.6, 1.05, 0.65⟩ (fun _ => 0) (fun _ => 0)
    [(true, 1), (false, 2)] 0 (by norm_num)

/-- C10: with a nonnegative pulse amplitude (and the configured nonnegative
base radius and in-range random draws), a running animate pass leaves every
particle's distance from the origin within
`[baseRadius - pulseAmplitude - 0.005, baseRadius + pulseAmplitude + 0.005]`. -/
theorem C10_distance_bound (p : Params) (rand1 rand2 : ℕ → ℝ) (t : ℝ) (i : ℕ)
    (hi : i < p.particleCount) (hA : 0 ≤ p.pulseAmplitude) (hR : 0 ≤ p.baseRadius)
    (h0 : 0 ≤ rand2 i) (h1 : rand2 i < 1) :
    p.baseRadius - p.pulseAmplitude - 0.005
      ≤ norm3 ((animateStep p true t
          (buildParticleSet p rand1 rand2)).position.getD i ⟨0, 0, 0⟩) ∧
    norm3 ((animateStep p true t
          (buildParticleSet p rand1 rand2)).position.getD i ⟨0, 0, 0⟩)
      ≤ p.baseRadius + p.pulseAmplitude + 0.005 := by
  have hpos : (animateStep p true t
        (buildParticleSet p rand1 rand2)).position.getD i ⟨0, 0, 0⟩
      = Vec3.smul (radiusAt p (buildParticleSet p rand1 rand2) i t
          + noiseAt p (buildParticleSet p rand1 rand2) i t)
        (normalOf p.particleCount i) := by
    show ((List.range p.particleCount).map
        (updatedPosition p (buildParticleSet p rand1 rand2) t)).getD i ⟨0, 0, 0⟩ = _
    rw [getD_map_range _ hi]
    unfold updatedPosition
    rw [show (buildParticleSet p rand1 rand2).normalVec
        = (List.range p.particleCount).map (normalOf p.particleCount) from rfl,
      getD_map_range (normalOf p.particleCount) hi]
  rw [hpos, norm3_smul, norm3_normalOf, mul_one]
  have hrf : rFactor (buildParticleSet p rand1 rand2) i = rand2 i * 0.8 + 0.2 := by
    show ((List.range p.particleCount).map rand2).getD i 0 * 0.8 + 0.2 = _
    rw [getD_map_range rand2 hi]
  have hrf0 : 0.2 ≤ rFactor (buildParticleSet p rand1 rand2) i := by
    rw [hrf]; nlinarith
  have hrf1 : rFactor (buildParticleSet p rand1 rand2) i ≤ 1 := by
    rw [hrf]; nlinarith
  have hlp : |pulseAt p t * rFactor (buildParticleSet p rand1 rand2) i|
      ≤ p.pulseAmplitude := by
    unfold pulseAt
    rw [show Real.sin (t * p.pulseSpeed) * p.pulseAmplitude
          * rFactor (buildParticleSet p rand1 rand2) i
        = Real.sin (t * p.pulseSpeed) * rFactor (buildParticleSet p rand1 rand2) i
          * p.pulseAmplitude by ring,
      abs_mul, abs_of_nonneg hA]
    apply mul_le_of_le_one_left hA
    rw [abs_mul]
    exact mul_le_one₀ (Real.abs_sin_le_one _) (abs_nonneg _)
      (by rw [abs_of_nonneg (by linarith)]; exact hrf1)
  have hnz : |noiseAt p (buildParticleSet p rand1 rand2) i t| ≤ 0.005 := by
    unfold noiseAt
    rw [abs_mul, show |(0.005 : ℝ)| = 0.005 from abs_of_nonneg (by norm_num)]
    nlinarith [Real.abs_sin_le_one (t * (0.7
      + rFactor (buildParticleSet p rand1 rand2) i * 2.0) + (i : ℝ)),
      abs_nonneg (Real.sin (t * (0.7
      + rFactor (buildParticleSet p rand1 rand2) i * 2.0) + (i : ℝ)))]
  have hdev : |radiusAt p (buildParticleSet p rand1 rand2) i t
      + noiseAt p (buildParticleSet p rand1 rand2) i t - p.baseRadius|
      ≤ p.pulseAmplitude + 0.005 := by
    have : radiusAt p (buildParticleSet p rand1 rand2) i t
        + noiseAt p (buildParticleSet p rand1 rand2) i t - p.baseRadius
        = pulseAt p t * rFactor (buildParticleSet p rand1 rand2) i
          + noiseAt p (buildParticleSet p rand1 rand2) i t := by
      unfold radiusAt; ring
    rw [this]
    calc |pulseAt p t * rFactor (buildParticleSet p rand1 rand2) i
        + noiseAt p (buildParticleSet p rand1 rand2) i t|
        ≤ |pulseAt p t * rFactor (buildParticleSet p rand1 rand2) i|
          + |noiseAt p (buildParticleSet p rand1 rand2) i t| := abs_add _ _
      _ ≤ p.pulseAmplitude + 0.005 := by linarith
  obtain ⟨hdl, hdu⟩ := abs_le.mp hdev
  constructor
  · exact le_trans (by linarith) (le_abs_self _)
  · exact abs_le.mpr ⟨by linarith, by linarith⟩

/-- C10 witness: at the default parameters, one particle, time zero and
zero random draws, the distance after a running pass lies within the
stated band. -/
theorem C10_distance_bound_witness :
    (5 : ℝ) - 0.6 - 0.005
      ≤ norm3 ((animateStep ⟨1, 5, 0.6, 1.05, 0.65⟩ true 0
          (buildParticleSet ⟨1, 5, 0.6, 1.05, 0.65⟩ (fun _ => 0)
            (fun _ => 0))).position.getD 0 ⟨0, 0, 0⟩) ∧
    norm3 ((animateStep ⟨1, 5, 0.6, 1.05, 0.65⟩ true 0
          (buildParticleSet ⟨1, 5, 0.6, 1.05, 0.65⟩ (fun _ => 0)
            (fun _ => 0))).position.getD 0 ⟨0, 0, 0⟩)
      ≤ (5 : ℝ) + 0.6 + 0.005 :=
  C10_distance_bound ⟨1, 5, 0.6, 1.05, 0.65⟩ (fun _ => 0) (fun _ => 0) 0 0
    (by norm_num) (by norm_num) (by norm_num) (by norm_num) (by norm_num)

end DustSphere
